import Mathlib

/-!
Verification development for the pedometer step detection and counting
algorithm (`pedometer.c` / `pedometer.h`).

The C code is shallowly embedded: machine floats are modelled as exact
rationals (`ℚ`), the fixed-size C arrays as Lean lists, and the
process-global mutable state (`static` variables, the output struct and
the per-class counters) as explicit state records threaded through the
functions.  Definition names follow the C source
(`apply_filter`, `step_algo_preproc`, `step_algo_run`).
-/

namespace Pedometer

/-! ## Constants from `pedometer.h` and `step_algo_run` -/

def EPSILON : ℚ := 1/1000000

def SENSOR_SAMP_FREQ : ℕ := 104

def BUFF_FACTOR : ℕ := 2

def SAMP_BUFF_LEN : ℕ := SENSOR_SAMP_FREQ / BUFF_FACTOR

def MAX_TC_SAMPLES : ℕ := 20

def VERY_HIGH_VAL : ℚ := 100000

def NO_DETECT_DUR_SEC : ℚ := 2/10

def CLOSE_TO_ZERO : ℚ := 3/2

def MAX_TIME_PERIOD_SEC : ℚ := 3/2

def SMALL_AMP : ℚ := 5

def LARGE_AMP : ℚ := 15

def SLOW_FREQ : ℚ := 1/2

def FAST_FREQ : ℚ := 22/10

/-! ## Data model -/

/-- The 2nd-order filter state (`filter_t` in `pedometer.h`). -/
structure Filter where
  b0 : ℚ
  b1 : ℚ
  b2 : ℚ
  a1 : ℚ
  a2 : ℚ
  prev_in : ℚ
  prev_prev_in : ℚ
  prev_out : ℚ
  prev_prev_out : ℚ
  TC_samples : ℕ
deriving DecidableEq, Repr

/-- Motion types (`motion_type_t`): STATIC = 0, WALK, HOP, RUN. -/
inductive Motion where
  | STATIC
  | WALK
  | HOP
  | RUN
deriving DecidableEq, Repr

/-- The algorithm output struct (`algo_out_t`). -/
structure AlgoOut where
  step_count : ℕ
  step_type : Motion
  prev_max : ℚ
  prev_min : ℚ
  prev_max_ts : ℚ
  prev_min_ts : ℚ
deriving DecidableEq, Repr

/-- `apply_filter`: compute the 2nd-order IIR output and shift the
input/output histories.  Returns the output together with the updated
filter state (the C function mutates through a pointer). -/
def apply_filter (f : Filter) (in_data : ℚ) : ℚ × Filter :=
  let out_data := f.b0 * in_data + f.b1 * f.prev_in + f.b2 * f.prev_prev_in
      - f.a1 * f.prev_out - f.a2 * f.prev_prev_out
  (out_data,
    { f with
        prev_prev_in := f.prev_in
        prev_in := in_data
        prev_prev_out := f.prev_out
        prev_out := out_data })

/-- The first loop of `step_algo_run`: run `apply_filter` over the whole
buffered frame with the lead-lag filter, producing the derivative array
`AccDer` and the final filter state. -/
def computeDer (f : Filter) : List ℚ → List ℚ × Filter
  | [] => ([], f)
  | x :: xs =>
    let p := apply_filter f x
    let r := computeDer p.2 xs
    (p.1 :: r.1, r.2)

/-- The local state of the zero-crossing scan loop of `step_algo_run`
(lines 291-344 of `pedometer.c`).  All fields except `commits` mirror C
locals/statics; `commits` is proof instrumentation recording, newest
first, the committed extrema as `(kind, timestamp)` pairs with `true` for
a maximum and `false` for a minimum.  It influences nothing else. -/
structure ScanState where
  prev_max_val : ℚ
  prev_max_ts : ℚ
  prev_min_val : ℚ
  prev_min_ts : ℚ
  new_max_val : ℚ
  new_max_ts : ℚ
  new_min_val : ℚ
  new_min_ts : ℚ
  avg_max_val : ℚ
  avg_min_val : ℚ
  avg_time_period : ℚ
  amp_est : ℚ
  count_max_det : ℕ
  count_min_det : ℕ
  prevAccDer : ℚ
  commits : List (Bool × ℚ)
deriving DecidableEq, Repr

/-- The max-search candidate handling of `step_algo_run` (lines 298-316):
`v` is the candidate value `AccFilt[i]` and `t` the candidate timestamp
`TimeStamps[i]` read by the loop body. -/
def scanMax (v t : ℚ) (s : ScanState) : ScanState :=
  -- avoid searching very close to an already found max value
  if t - s.prev_max_ts > NO_DETECT_DUR_SEC then
    let s := { s with new_max_val := v }
    if |v| > CLOSE_TO_ZERO then
      let s := { s with new_max_ts := t }
      -- clamp the gap between new_max_ts and prev_max_ts
      let s := if t > s.prev_max_ts + MAX_TIME_PERIOD_SEC then
          { s with prev_max_ts := t - MAX_TIME_PERIOD_SEC } else s
      -- avoid a max value very close to the prev min value
      if v - s.prev_min_val > CLOSE_TO_ZERO then
        { s with
            avg_time_period := s.avg_time_period + (t - s.prev_max_ts)
            avg_max_val := s.avg_max_val + v
            count_max_det := s.count_max_det + 1
            prev_max_ts := t
            prev_max_val := v
            commits := (true, t) :: s.commits }
      else s
    else s
  else s

/-- The min-search candidate handling of `step_algo_run` (lines 322-341). -/
def scanMin (v t : ℚ) (s : ScanState) : ScanState :=
  -- avoid searching very close to an already found min value
  if t - s.prev_min_ts > NO_DETECT_DUR_SEC then
    let s := { s with new_min_val := v, new_min_ts := t }
    -- clamp the gap between new_min_ts and prev_min_ts
    let s := if t > s.prev_min_ts + MAX_TIME_PERIOD_SEC then
        { s with prev_min_ts := t - MAX_TIME_PERIOD_SEC } else s
    -- avoid a min value very close to the prev max value
    if s.prev_max_val - v > CLOSE_TO_ZERO then
      { s with
          avg_time_period := s.avg_time_period + (t - s.prev_min_ts)
          avg_min_val := s.avg_min_val + v
          amp_est := s.amp_est + (s.prev_max_val - v)
          count_min_det := s.count_min_det + 1
          prev_min_ts := t
          prev_min_val := v
          commits := (false, t) :: s.commits }
    else s
  else s

/-- One iteration of the zero-crossing scan loop of `step_algo_run`
(loop body, `delta = 1`).  `der` is `AccDer`, `sExt` is `AccFilt`, and
`tsExt` is `TimeStamps`; the C code reads all three at index `i`
(and `AccDer` additionally at `i - delta`). -/
def scanStep (der sExt tsExt : List ℚ) (i : ℕ) (s0 : ScanState) : ScanState :=
  let s := if 1 ≤ i then { s0 with prevAccDer := der.getD (i - 1) 0 } else s0
  if s.prev_max_ts ≤ s.prev_min_ts then
    -- need to find the next max val (falling zero crossing)
    if der.getD i 0 < -EPSILON ∧ s.prevAccDer ≥ 0 then
      scanMax (sExt.getD i 0) (tsExt.getD i 0) s
    else s
  else
    -- need to find the next min val (rising zero crossing)
    if der.getD i 0 > EPSILON ∧ s.prevAccDer ≤ 0 then
      scanMin (sExt.getD i 0) (tsExt.getD i 0) s
    else s

/-- The full zero-crossing scan loop (`for i = 0; i < SAMP_BUFF_LEN; i += 1`). -/
def scanRun (der sExt tsExt : List ℚ) (s : ScanState) : ScanState :=
  (List.range SAMP_BUFF_LEN).foldl (fun s i => scanStep der sExt tsExt i s) s

/-- The state carried between calls of `step_algo_run`: the output struct,
the lead-lag filter state `ll_filter_y`, the four `static` scalars of
`step_algo_run`, the first `TC_samples` cells of the `static` arrays
`AccFilt` and `TimeStamps` (the only cells surviving to, and read by, the
next call; cells from index `TC_samples + SAMP_BUFF_LEN` on are never
read), and the three global per-class step counters. -/
structure RunState where
  out : AlgoOut
  ll : Filter
  prev_amp_est : ℚ
  prev_freq_est : ℚ
  amp_est_hold : ℕ
  freq_est_hold : ℕ
  prevAccDer : ℚ
  tailS : List ℚ
  tailTs : List ℚ
  num_steps_walk : ℕ
  num_steps_run : ℕ
  num_steps_hop : ℕ
deriving DecidableEq, Repr

/-- The scan-loop entry state built by `step_algo_run` before the loop:
new max/min sentinels, zeroed accumulators, and the carried-over
previous max/min data and previous derivative sample. -/
def scanInit (st : RunState) : ScanState :=
  { prev_max_val := st.out.prev_max
    prev_max_ts := st.out.prev_max_ts
    prev_min_val := st.out.prev_min
    prev_min_ts := st.out.prev_min_ts
    new_max_val := -VERY_HIGH_VAL
    new_max_ts := 0
    new_min_val := VERY_HIGH_VAL
    new_min_ts := 0
    avg_max_val := 0
    avg_min_val := 0
    avg_time_period := 0
    amp_est := 0
    count_max_det := 0
    count_min_det := 0
    prevAccDer := st.prevAccDer
    commits := [] }

/-- The motion-classification tail of `step_algo_run` (lines 391-424):
given the amplitude and frequency estimates, produce the new `step_type`
and the updated per-class counters. -/
def classify (amp_est freq_est : ℚ) (w r h cmin : ℕ) : Motion × ℕ × ℕ × ℕ :=
  if amp_est ≤ SMALL_AMP then
    if freq_est ≤ SLOW_FREQ then (Motion.STATIC, w, r, h)
    else (Motion.WALK, w + cmin, r, h)
  else if amp_est ≥ LARGE_AMP then
    if freq_est ≥ FAST_FREQ then (Motion.RUN, w, r + cmin, h)
    else (Motion.HOP, w, r, h + cmin)
  else
    if freq_est ≥ FAST_FREQ then (Motion.RUN, w, r + cmin, h)
    else (Motion.WALK, w + cmin, r, h)

/-- The scan-loop result of one `step_algo_run` batch: derivative of the
buffered frame through the lead-lag filter, extended value/timestamp
arrays (carried tail prepended to the fresh frame), zero-crossing scan
from the carried-over detector state. -/
def scanOf (buffY buffTs : List ℚ) (st : RunState) : ScanState :=
  scanRun (computeDer st.ll buffY).1 (st.tailS ++ buffY) (st.tailTs ++ buffTs)
    (scanInit st)

/-- The post-loop estimation of `step_algo_run` (lines 346-373): returns
`(amp_est, amp_est_hold, freq_est, freq_est_hold)` with the hold-counter
aging applied. -/
def estPost (st : RunState) (s : ScanState) : ℚ × ℕ × ℚ × ℕ :=
  let ampPair : ℚ × ℕ :=
    if s.count_min_det > 0 then (s.amp_est / (s.count_min_det : ℚ), 0)
    else (st.prev_amp_est, st.amp_est_hold + 1)
  let ampPair2 : ℚ × ℕ := if ampPair.2 > BUFF_FACTOR then (0, 0) else ampPair
  let avg_time_period : ℚ :=
    if s.count_max_det + s.count_min_det > 0 then
      s.avg_time_period / ((s.count_max_det + s.count_min_det : ℕ) : ℚ)
    else s.avg_time_period
  let freqPair : ℚ × ℕ :=
    if avg_time_period > EPSILON then (1 / avg_time_period, 0)
    else (st.prev_freq_est, st.freq_est_hold + 1)
  let freqPair2 : ℚ × ℕ := if freqPair.2 > BUFF_FACTOR then (0, 0) else freqPair
  (ampPair2.1, ampPair2.2, freqPair2.1, freqPair2.2)

/-- `step_algo_run`: one batch of the detector.  `buffY` and `buffTs` are
the contents of `AccBuff[CHY]` and `AccBuff[CHZ+1]` (the smoothed
vertical acceleration and timestamps stored by `step_algo_preproc`). -/
def step_algo_run (buffY buffTs : List ℚ) (st : RunState) : RunState :=
  let s := scanOf buffY buffTs st
  let est := estPost st s
  let cls := classify est.1 est.2.2.1
      st.num_steps_walk st.num_steps_run st.num_steps_hop s.count_min_det
  { out :=
      { step_count := st.out.step_count + s.count_min_det
        step_type := cls.1
        prev_max := s.prev_max_val
        prev_max_ts := s.prev_max_ts
        prev_min := s.prev_min_val
        prev_min_ts := s.prev_min_ts }
    ll := (computeDer st.ll buffY).2
    prev_amp_est := est.1
    prev_freq_est := est.2.2.1
    amp_est_hold := est.2.1
    freq_est_hold := est.2.2.2
    prevAccDer := (computeDer st.ll buffY).1.getD (SAMP_BUFF_LEN - 1) 0
    tailS := buffY.drop (SAMP_BUFF_LEN - st.ll.TC_samples)
    tailTs := buffTs.drop (SAMP_BUFF_LEN - st.ll.TC_samples)
    num_steps_walk := cls.2.1
    num_steps_run := cls.2.2.1
    num_steps_hop := cls.2.2.2 }

/-! ## Per-sample front end -/

/-- State of the whole core: the low-pass filter `lp_filter_y`, the frame
buffer rows `AccBuff[CHY]` / `AccBuff[CHZ+1]`, the `static` fill counter
of `step_algo_preproc`, and the detector state. -/
structure CoreState where
  lp : Filter
  buffY : List ℚ
  buffTs : List ℚ
  count : ℕ
  run : RunState
deriving DecidableEq, Repr

/-- `step_algo_preproc`: smooth `ary` with the low-pass filter, store the
pair at buffer index `count`, bump `count`, and report (as 0/1) whether
the buffer just filled (resetting `count` in that case). -/
def step_algo_preproc (timestamp arx ary arz grx gry grz : ℚ)
    (st : CoreState) : ℕ × CoreState :=
  let p := apply_filter st.lp ary
  let buffY := st.buffY.set st.count p.1
  let buffTs := st.buffTs.set st.count timestamp
  let count := st.count + 1
  if count = SAMP_BUFF_LEN then
    (1, { st with lp := p.2, buffY := buffY, buffTs := buffTs, count := 0 })
  else
    (0, { st with lp := p.2, buffY := buffY, buffTs := buffTs, count := count })

/-- One input record as read by the main loop. -/
structure Sample where
  timestamp : ℚ
  arx : ℚ
  ary : ℚ
  arz : ℚ
  grx : ℚ
  gry : ℚ
  grz : ℚ
deriving DecidableEq, Repr

/-- One iteration of the main processing loop: preprocess the sample and,
when the buffer is full, run the step algorithm. -/
def push (a : Sample) (st : CoreState) : ℕ × CoreState :=
  let pr := step_algo_preproc a.timestamp a.arx a.ary a.arz a.grx a.gry a.grz st
  if pr.1 = 1 then
    (pr.1, { pr.2 with run := step_algo_run pr.2.buffY pr.2.buffTs pr.2.run })
  else pr

/-- The per-sample observable output: the detector-ran flag, the running
step count, the motion label and the per-class counters. -/
def sampleOut (flag : ℕ) (st : CoreState) : ℕ × ℕ × Motion × ℕ × ℕ × ℕ :=
  (flag, st.run.out.step_count, st.run.out.step_type,
    st.run.num_steps_walk, st.run.num_steps_run, st.run.num_steps_hop)

/-- Process a whole input sequence, returning the per-sample outputs and
the final state. -/
def runSeq : List Sample → CoreState → List (ℕ × ℕ × Motion × ℕ × ℕ × ℕ) × CoreState
  | [], st => ([], st)
  | a :: l, st =>
    let p := push a st
    let rest := runSeq l p.2
    (sampleOut p.1 p.2 :: rest.1, rest.2)

/-! ## Initialisation (from `main`) -/

/-- Group-delay sample count for a delay constant `tau` (seconds):
`(unsigned int)(SENSOR_SAMP_FREQ * tau) + 1`, capped at `MAX_TC_SAMPLES`. -/
def tcSamples (tau : ℚ) : ℕ :=
  let t := ((SENSOR_SAMP_FREQ : ℚ) * tau).floor.toNat + 1
  if t > MAX_TC_SAMPLES then MAX_TC_SAMPLES else t

/-- Low-pass (3 Hz) filter delay samples: 8 at 104 Hz. -/
def lp_TC : ℕ := tcSamples (75/1000)

/-- Lead-lag (4 Hz) filter delay samples: 7 at 104 Hz.  This is the `K`
of the specification. -/
def ll_TC : ℕ := tcSamples (6/100)

/-- `lp_filter_y` as initialised in `main`. -/
def lp_filter_init : Filter :=
  { b0 := 7.2269463e-3
    b1 := 1.4453893e-2
    b2 := 7.2269463e-3
    a1 := -1.7455322
    a2 := 7.7444003e-1
    prev_in := 0
    prev_prev_in := 0
    prev_out := 0
    prev_prev_out := 0
    TC_samples := lp_TC }

/-- `ll_filter_y` as initialised in `main`. -/
def ll_filter_init : Filter :=
  { b0 := 2.5369363
    b1 := 0
    b2 := -2.5369363
    a1 := -1.6641912
    a2 := 0.71297842
    prev_in := 0
    prev_prev_in := 0
    prev_out := 0
    prev_prev_out := 0
    TC_samples := ll_TC }

/-- Detector state at program start: zeroed output struct, zeroed
statics, zero-filled tails (the `static` arrays start zeroed), zero
per-class counters. -/
def initRunState : RunState :=
  { out :=
      { step_count := 0
        step_type := Motion.STATIC
        prev_max := 0
        prev_min := 0
        prev_max_ts := 0
        prev_min_ts := 0 }
    ll := ll_filter_init
    prev_amp_est := 0
    prev_freq_est := 0
    amp_est_hold := 0
    freq_est_hold := 0
    prevAccDer := 0
    tailS := List.replicate ll_TC 0
    tailTs := List.replicate ll_TC 0
    num_steps_walk := 0
    num_steps_run := 0
    num_steps_hop := 0 }

/-- Core state at program start. -/
def initState : CoreState :=
  { lp := lp_filter_init
    buffY := List.replicate SAMP_BUFF_LEN 0
    buffTs := List.replicate SAMP_BUFF_LEN 0
    count := 0
    run := initRunState }

/-! ## Spec-variant of the scan loop

The specification (§4.4) states that at loop index `i` the detector
examines `v = s_ext[K + i]` and `t = ts_ext[K + i]`, where `K` is the
lead-lag group delay `ll_TC`.  The following variant is modelled from
those words — identical to `scanStep` except that every read of the
extended value/timestamp arrays is at index `K + i` instead of `i` — so
that the claim can be compared against the code. -/

/-- Spec-variant of `scanStep`: reads `sExt`/`tsExt` at `ll_TC + i`. -/
def scanStepSpec (der sExt tsExt : List ℚ) (i : ℕ) (s0 : ScanState) : ScanState :=
  let s := if 1 ≤ i then { s0 with prevAccDer := der.getD (i - 1) 0 } else s0
  if s.prev_max_ts ≤ s.prev_min_ts then
    if der.getD i 0 < -EPSILON ∧ s.prevAccDer ≥ 0 then
      scanMax (sExt.getD (ll_TC + i) 0) (tsExt.getD (ll_TC + i) 0) s
    else s
  else
    if der.getD i 0 > EPSILON ∧ s.prevAccDer ≤ 0 then
      scanMin (sExt.getD (ll_TC + i) 0) (tsExt.getD (ll_TC + i) 0) s
    else s

/-- Spec-variant of the full scan loop. -/
def scanRunSpec (der sExt tsExt : List ℚ) (s : ScanState) : ScanState :=
  (List.range SAMP_BUFF_LEN).foldl (fun s i => scanStepSpec der sExt tsExt i s) s

/-- A zeroed scan state (fresh detector, sentinels as set by
`step_algo_run`), used for concrete evaluations. -/
def scanZero : ScanState := scanInit initRunState

/-! ## Ghost-trace helpers -/

/-- Timestamps of the committed extrema of kind `k` in a commit trace,
newest first. -/
def tsOfKind (k : Bool) (l : List (Bool × ℚ)) : List ℚ :=
  (l.filter fun c => c.1 == k).map fun c => c.2

/-- Timestamps of the committed maxima of a scan state, newest first. -/
def maxTs (s : ScanState) : List ℚ := tsOfKind true s.commits

/-- Timestamps of the committed minima of a scan state, newest first. -/
def minTs (s : ScanState) : List ℚ := tsOfKind false s.commits

/-- Do the kinds in a commit trace strictly alternate? -/
def altKinds : List (Bool × ℚ) → Bool
  | [] => true
  | [_] => true
  | a :: b :: l => (a.1 != b.1) && altKinds (b :: l)

/-- Every commit adds a period contribution in
`(NO_DETECT_DUR_SEC, MAX_TIME_PERIOD_SEC]` to `avg_time_period`, so the
accumulated sum is bounded by the number of detections. -/
def periodInv (s : ScanState) : Prop :=
  s.avg_time_period ≤ MAX_TIME_PERIOD_SEC * ((s.count_max_det : ℚ) + (s.count_min_det : ℚ)) ∧
  (s.count_max_det + s.count_min_det = 0 → s.avg_time_period = 0) ∧
  (s.count_max_det + s.count_min_det ≠ 0 →
    NO_DETECT_DUR_SEC * ((s.count_max_det : ℚ) + (s.count_min_det : ℚ)) < s.avg_time_period)

/-- Invariant for the amplitude-gating argument: no minimum has been
committed, and the running `prev_max_val` is either the carried-in value
or one of the candidate values of the extended array. -/
def maxValInv (v0 : ℚ) (ext : List ℚ) (s : ScanState) : Prop :=
  s.count_min_det = 0 ∧
  (s.prev_max_val = v0 ∨ ∃ j, j < SAMP_BUFF_LEN ∧ s.prev_max_val = ext.getD j 0)

/-- Two commit timestamps are admissible when separated by more than the
dead time. -/
def gapOK (a b : ℚ) : Prop := a - b > NO_DETECT_DUR_SEC

/-- Dead-time invariant: the committed timestamps of each kind (newest
first) are separated pairwise-consecutively by more than
`NO_DETECT_DUR_SEC`, each is bounded by the running same-kind timestamp,
each exceeds the initial same-kind timestamp by more than the dead time,
and the running timestamps never decrease below the initial ones. -/
def deadTimeInv (M0 m0 : ℚ) (s : ScanState) : Prop :=
  List.Chain' gapOK (maxTs s) ∧
  (∀ a ∈ maxTs s, a ≤ s.prev_max_ts ∧ gapOK a M0) ∧
  M0 ≤ s.prev_max_ts ∧
  List.Chain' gapOK (minTs s) ∧
  (∀ a ∈ minTs s, a ≤ s.prev_min_ts ∧ gapOK a m0) ∧
  m0 ≤ s.prev_min_ts

/-- Frame-effect invariant: if a detection counter has not advanced from
its value in `s0`, the corresponding committed value is unchanged. -/
def frameInv (s0 s : ScanState) : Prop :=
  (s.count_max_det = s0.count_max_det → s.prev_max_val = s0.prev_max_val) ∧
  (s.count_min_det = s0.count_min_det → s.prev_min_val = s0.prev_min_val) ∧
  s0.count_max_det ≤ s.count_max_det ∧ s0.count_min_det ≤ s.count_min_det

/-- A fixed concrete input sample. -/
def sample0 : Sample :=
  { timestamp := 1, arx := 2, ary := 3, arz := 4, grx := 5, gry := 6, grz := 7 }

/-- A second concrete sample: same timestamp and `ary` as `sample0`,
different values on all ignored channels. -/
def sample1 : Sample :=
  { timestamp := 1, arx := 20, ary := 3, arz := 40, grx := 50, gry := 60, grz := 70 }

/-! ## Concrete batches used as counterexamples and witnesses -/

/-- Derivative array with a single falling zero crossing at index 0. -/
def derC1 : List ℚ := (-1) :: List.replicate 51 1

/-- Extended value array whose entry 0 (read by the code) is 2 while
entry `ll_TC = 7` (prescribed by the spec sentence) is 5. -/
def sExtC1 : List ℚ := [2, 9, 9, 9, 9, 9, 9, 5] ++ List.replicate 51 9

/-- Extended timestamp array, constant 1. -/
def tsExtC1 : List ℚ := List.replicate 59 1

/-- Derivative array with falling zero crossings at indices 0 and 30. -/
def derC3 : List ℚ :=
  (List.range 52).map (fun i => if i = 0 ∨ i = 30 then (-1 : ℚ) else 1)

/-- Extended value array, constant 10. -/
def sExtC3 : List ℚ := List.replicate 59 10

/-- Extended timestamp array `j + 1`. -/
def tsExtC3 : List ℚ := (List.range 59).map (fun j => (j : ℚ) + 1)

/-- A fresh scan state whose last confirmed minimum lies far ahead, so
max-search mode persists across several max commits. -/
def scanZeroMin5 : ScanState := { scanZero with prev_min_ts := 5 }

/-- Constant `-2` frame: its lead-lag derivative decays with a sign
pattern that fires the falling-crossing gate twice, the second time with
a large timestamp gap and a candidate too close to the previous minimum,
so the clamp moves `prev_max_ts` without any commit. -/
def buffYC10 : List ℚ := List.replicate SAMP_BUFF_LEN (-2)

/-- Timestamps `j + 1` for the constant frame. -/
def buffTsC10 : List ℚ := (List.range SAMP_BUFF_LEN).map (fun j => (j : ℚ) + 1)

/-! ## Generic loop-invariant helper -/

theorem scan_foldl_inv {der sExt tsExt : List ℚ} {P : ScanState → Prop}
    (l : List ℕ) (hstep : ∀ i ∈ l, ∀ s, P s → P (scanStep der sExt tsExt i s)) :
    ∀ s, P s → P (l.foldl (fun s i => scanStep der sExt tsExt i s) s) := by
  induction l with
  | nil => intro s hs; exact hs
  | cons a l ih =>
    intro s hs
    exact ih (fun i hi => hstep i (List.mem_cons_of_mem _ hi)) _
      (hstep a (List.mem_cons_self _ _) s hs)

/-! ## Claim C7: the 2nd-order filter primitive -/

/-- C7: for every filter state and input `x`, `apply_filter` returns
`y = b0*x + b1*x_prev + b2*x_prev_prev - a1*y_prev - a2*y_prev_prev`,
shifts the four history fields accordingly, and leaves the five
coefficients and the delay constant unchanged. -/
theorem C7_apply_filter_spec (f : Filter) (x : ℚ) :
    (apply_filter f x).1 = f.b0 * x + f.b1 * f.prev_in + f.b2 * f.prev_prev_in
      - f.a1 * f.prev_out - f.a2 * f.prev_prev_out ∧
    (apply_filter f x).2.prev_prev_in = f.prev_in ∧
    (apply_filter f x).2.prev_in = x ∧
    (apply_filter f x).2.prev_prev_out = f.prev_out ∧
    (apply_filter f x).2.prev_out = (apply_filter f x).1 ∧
    (apply_filter f x).2.b0 = f.b0 ∧
    (apply_filter f x).2.b1 = f.b1 ∧
    (apply_filter f x).2.b2 = f.b2 ∧
    (apply_filter f x).2.a1 = f.a1 ∧
    (apply_filter f x).2.a2 = f.a2 ∧
    (apply_filter f x).2.TC_samples = f.TC_samples :=
  ⟨rfl, rfl, rfl, rfl, rfl, rfl, rfl, rfl, rfl, rfl, rfl⟩

/-! ## Claim C6: per-sample preprocessing and framing -/

/-- C6: `step_algo_preproc` low-pass filters `ary`, stores the pair
(smoothed value, timestamp) at buffer index `count`, increments `count`,
and returns 1 exactly when the incremented count reaches
`SAMP_BUFF_LEN = 52`, resetting `count` to 0 in that case and returning
0 otherwise; `push` runs the detector exactly on those calls. -/
theorem C6_preproc_framing (a : Sample) (st : CoreState) :
    (step_algo_preproc a.timestamp a.arx a.ary a.arz a.grx a.gry a.grz st).2.buffY
      = st.buffY.set st.count (apply_filter st.lp a.ary).1 ∧
    (step_algo_preproc a.timestamp a.arx a.ary a.arz a.grx a.gry a.grz st).2.buffTs
      = st.buffTs.set st.count a.timestamp ∧
    (step_algo_preproc a.timestamp a.arx a.ary a.arz a.grx a.gry a.grz st).2.lp
      = (apply_filter st.lp a.ary).2 ∧
    (step_algo_preproc a.timestamp a.arx a.ary a.arz a.grx a.gry a.grz st).2.count
      = (if st.count + 1 = SAMP_BUFF_LEN then 0 else st.count + 1) ∧
    ((step_algo_preproc a.timestamp a.arx a.ary a.arz a.grx a.gry a.grz st).1 = 1
      ↔ st.count + 1 = SAMP_BUFF_LEN) ∧
    (push a st).2.run
      = (if st.count + 1 = SAMP_BUFF_LEN then
          step_algo_run
            (step_algo_preproc a.timestamp a.arx a.ary a.arz a.grx a.gry a.grz st).2.buffY
            (step_algo_preproc a.timestamp a.arx a.ary a.arz a.grx a.gry a.grz st).2.buffTs
            st.run
        else st.run) := by
  by_cases h : st.count + 1 = SAMP_BUFF_LEN <;>
    simp [step_algo_preproc, push, h]

/-- Witness for C6 at a concrete input. -/
theorem C6_preproc_framing_witness :
    ((step_algo_preproc sample0.timestamp sample0.arx sample0.ary sample0.arz
        sample0.grx sample0.gry sample0.grz initState).1 = 1
      ↔ initState.count + 1 = SAMP_BUFF_LEN) :=
  (C6_preproc_framing sample0 initState).2.2.2.2.1

/-! ## Claim C9: noninterference of the unused channels -/

theorem push_unused_channels (a b : Sample) (st : CoreState)
    (h1 : a.timestamp = b.timestamp) (h2 : a.ary = b.ary) :
    push a st = push b st := by
  cases a; cases b
  cases h1; cases h2
  rfl

/-- C9: two input sequences that agree on timestamp and `ary` at every
sample produce identical per-sample outputs and final state, whatever
the `arx`, `arz` and gyroscope channels are. -/
theorem C9_noninterference (l1 l2 : List Sample) (st : CoreState)
    (h : l1.map (fun a => (a.timestamp, a.ary)) = l2.map (fun a => (a.timestamp, a.ary))) :
    runSeq l1 st = runSeq l2 st := by
  induction l1 generalizing l2 st with
  | nil =>
    cases l2 with
    | nil => rfl
    | cons b l2 => simp at h
  | cons a l1 ih =>
    cases l2 with
    | nil => simp at h
    | cons b l2 =>
      simp only [List.map_cons, List.cons.injEq, Prod.mk.injEq] at h
      obtain ⟨⟨h1, h2⟩, hrest⟩ := h
      have hp : push a st = push b st := push_unused_channels a b st h1 h2
      simp only [runSeq, hp, ih l2 (push b st).2 hrest]

/-- Witness for C9: the two samples differ on the ignored channels only,
and the run results coincide. -/
theorem C9_noninterference_witness :
    runSeq [sample0] initState = runSeq [sample1] initState :=
  C9_noninterference [sample0] [sample1] initState rfl

set_option maxRecDepth 8192 in
theorem push_run_cases (a : Sample) (st : CoreState) :
    (push a st).2.run = st.run ∨
    (push a st).2.run = step_algo_run
        (st.buffY.set st.count (apply_filter st.lp a.ary).1)
        (st.buffTs.set st.count a.timestamp) st.run := by
  simp only [push, step_algo_preproc]
  split_ifs
  all_goals first
    | exact Or.inr rfl
    | exact Or.inl rfl
    | simp_all

/-! ## Scan-loop invariant: accumulated period bounds -/

/-- Case analysis for one scan-loop iteration: either nothing happens
beyond the `prevAccDer` refresh, or (depending on the mode inequality)
the max-search or min-search handler runs on the candidate pair read at
index `i`. -/
theorem scanStep_cases (der sExt tsExt : List ℚ) (i : ℕ) (s0 : ScanState) :
    ∃ s1 : ScanState,
      (s1 = s0 ∨ s1 = { s0 with prevAccDer := der.getD (i - 1) 0 }) ∧
      (scanStep der sExt tsExt i s0 = s1 ∨
        (s1.prev_max_ts ≤ s1.prev_min_ts ∧
          scanStep der sExt tsExt i s0 = scanMax (sExt.getD i 0) (tsExt.getD i 0) s1) ∨
        (¬ s1.prev_max_ts ≤ s1.prev_min_ts ∧
          scanStep der sExt tsExt i s0 = scanMin (sExt.getD i 0) (tsExt.getD i 0) s1)) := by
  simp only [scanStep]
  split_ifs
  all_goals first
    | exact ⟨_, Or.inl rfl, Or.inl rfl⟩
    | exact ⟨_, Or.inr rfl, Or.inl rfl⟩
    | (refine ⟨_, Or.inl rfl, Or.inr (Or.inl ⟨?_, rfl⟩)⟩ ; assumption)
    | (refine ⟨_, Or.inr rfl, Or.inr (Or.inl ⟨?_, rfl⟩)⟩ ; assumption)
    | (refine ⟨_, Or.inl rfl, Or.inr (Or.inr ⟨?_, rfl⟩)⟩ ; assumption)
    | (refine ⟨_, Or.inr rfl, Or.inr (Or.inr ⟨?_, rfl⟩)⟩ ; assumption)

theorem scanMax_periodInv (v t : ℚ) (s : ScanState) (h : periodInv s) :
    periodInv (scanMax v t s) := by
  have hnum : NO_DETECT_DUR_SEC < MAX_TIME_PERIOD_SEC := by
    norm_num [NO_DETECT_DUR_SEC, MAX_TIME_PERIOD_SEC]
  obtain ⟨hU, hZ, hL⟩ := h
  unfold periodInv
  simp only [scanMax]
  split_ifs with h1 h2 h3 h4 <;> try exact ⟨hU, hZ, hL⟩
  all_goals (
    refine ⟨?_, fun h0 => ?_, fun _ => ?_⟩ <;> try dsimp only
    case _ => push_cast ; linarith
    case _ => dsimp only at h0 ; omega
    case _ =>
      rcases Nat.eq_zero_or_pos (s.count_max_det + s.count_min_det) with h0 | h0
      · have e1 : s.count_max_det = 0 := by omega
        have e2 : s.count_min_det = 0 := by omega
        have h00 := hZ h0
        push_cast [e1, e2] at hU h00 ⊢
        linarith
      · have hLL := hL (by omega)
        push_cast at hLL ⊢
        linarith)

theorem scanMin_periodInv (v t : ℚ) (s : ScanState) (h : periodInv s) :
    periodInv (scanMin v t s) := by
  have hnum : NO_DETECT_DUR_SEC < MAX_TIME_PERIOD_SEC := by
    norm_num [NO_DETECT_DUR_SEC, MAX_TIME_PERIOD_SEC]
  obtain ⟨hU, hZ, hL⟩ := h
  unfold periodInv
  simp only [scanMin]
  split_ifs with h1 h2 h3 <;> try exact ⟨hU, hZ, hL⟩
  all_goals (
    refine ⟨?_, fun h0 => ?_, fun _ => ?_⟩ <;> try dsimp only
    case _ => push_cast ; linarith
    case _ => dsimp only at h0 ; omega
    case _ =>
      rcases Nat.eq_zero_or_pos (s.count_max_det + s.count_min_det) with h0 | h0
      · have e1 : s.count_max_det = 0 := by omega
        have e2 : s.count_min_det = 0 := by omega
        have h00 := hZ h0
        push_cast [e1, e2] at hU h00 ⊢
        linarith
      · have hLL := hL (by omega)
        push_cast at hLL ⊢
        linarith)

theorem scanStep_periodInv (der sExt tsExt : List ℚ) (i : ℕ) (s : ScanState)
    (h : periodInv s) : periodInv (scanStep der sExt tsExt i s) := by
  obtain ⟨s1, hs1, hc⟩ := scanStep_cases der sExt tsExt i s
  have h1 : periodInv s1 := by
    rcases hs1 with rfl | rfl
    · exact h
    · exact h
  rcases hc with he | ⟨hm, he⟩ | ⟨hm, he⟩ <;> rw [he]
  · exact h1
  · exact scanMax_periodInv _ _ _ h1
  · exact scanMin_periodInv _ _ _ h1

theorem scanRun_periodInv (der sExt tsExt : List ℚ) (s : ScanState)
    (h : periodInv s) : periodInv (scanRun der sExt tsExt s) :=
  scan_foldl_inv _ (fun i _ s hs => scanStep_periodInv der sExt tsExt i s hs) s h

theorem periodInv_scanInit (st : RunState) : periodInv (scanInit st) := by
  refine ⟨?_, fun _ => rfl, fun h0 => absurd rfl h0⟩
  simp [scanInit]

theorem scanOf_periodInv (buffY buffTs : List ℚ) (st : RunState) :
    periodInv (scanOf buffY buffTs st) :=
  scanRun_periodInv _ _ _ _ (periodInv_scanInit st)

/-! ## Claim C2: total step count equals the sum of the class counters -/

/-- When the scan committed at least one minimum, the frequency estimate
of the batch exceeds `SLOW_FREQ`: the accumulated period sum divided by
the detection count lies in `(NO_DETECT_DUR_SEC, MAX_TIME_PERIOD_SEC]`,
so its reciprocal is at least `2/3 > 1/2`. -/
theorem estPost_freq (st : RunState) (s : ScanState) (hp : periodInv s)
    (hc : 0 < s.count_min_det) : SLOW_FREQ < (estPost st s).2.2.1 := by
  obtain ⟨hU, _, hL⟩ := hp
  have htot : 0 < s.count_max_det + s.count_min_det := by omega
  have hLL := hL (by omega)
  have hcast : (0 : ℚ) < ((s.count_max_det + s.count_min_det : ℕ) : ℚ) := by
    exact_mod_cast htot
  set n : ℚ := ((s.count_max_det + s.count_min_det : ℕ) : ℚ) with hn
  have hdivU : s.avg_time_period / n ≤ MAX_TIME_PERIOD_SEC := by
    rw [div_le_iff hcast]
    push_cast [hn]
    push_cast at hU
    linarith
  have hdivL : NO_DETECT_DUR_SEC < s.avg_time_period / n := by
    rw [lt_div_iff hcast]
    push_cast [hn]
    push_cast at hLL
    linarith
  have heps : EPSILON < s.avg_time_period / n := by
    have : EPSILON < NO_DETECT_DUR_SEC := by
      norm_num [EPSILON, NO_DETECT_DUR_SEC]
    linarith
  have hdpos : 0 < s.avg_time_period / n := by
    have : (0:ℚ) < NO_DETECT_DUR_SEC := by norm_num [NO_DETECT_DUR_SEC]
    linarith
  simp only [estPost]
  rw [if_pos htot, if_pos heps]
  have hfirst : ¬ ((0:ℕ) > BUFF_FACTOR) := by norm_num [BUFF_FACTOR]
  rw [if_neg hfirst]
  show SLOW_FREQ < 1 / (s.avg_time_period / n)
  have h3 : (1:ℚ) / MAX_TIME_PERIOD_SEC ≤ 1 / (s.avg_time_period / n) :=
    one_div_le_one_div_of_le hdpos hdivU
  have h4 : SLOW_FREQ < (1:ℚ) / MAX_TIME_PERIOD_SEC := by
    norm_num [SLOW_FREQ, MAX_TIME_PERIOD_SEC]
  linarith

/-- The per-class counters absorb exactly the committed minima unless the
batch is classified STATIONARY, which requires `freq_est ≤ SLOW_FREQ`. -/
theorem classify_sum (amp freq : ℚ) (w r h c : ℕ)
    (hfc : SLOW_FREQ < freq ∨ c = 0) :
    (classify amp freq w r h c).2.1 + (classify amp freq w r h c).2.2.1
        + (classify amp freq w r h c).2.2.2 = w + r + h + c := by
  unfold classify
  split_ifs with a1 a2 <;> try (simp ; omega)
  · rcases hfc with hf | rfl
    · exact absurd a2 (not_le.mpr hf)
    · simp

set_option maxRecDepth 8192 in
/-- Each batch adds the same `c` (the committed-minimum count) to the
total step counter and to the sum of the per-class counters. -/
theorem step_algo_run_delta (buffY buffTs : List ℚ) (st : RunState) :
    ∃ c : ℕ,
      (step_algo_run buffY buffTs st).out.step_count = st.out.step_count + c ∧
      (step_algo_run buffY buffTs st).num_steps_walk
          + (step_algo_run buffY buffTs st).num_steps_run
          + (step_algo_run buffY buffTs st).num_steps_hop
        = st.num_steps_walk + st.num_steps_run + st.num_steps_hop + c := by
  refine ⟨(scanOf buffY buffTs st).count_min_det, rfl, ?_⟩
  have hp := scanOf_periodInv buffY buffTs st
  rcases Nat.eq_zero_or_pos (scanOf buffY buffTs st).count_min_det with h0 | h0
  · exact classify_sum _ _ _ _ _ _ (Or.inr h0)
  · exact classify_sum _ _ _ _ _ _ (Or.inl (estPost_freq st _ hp h0))

/-- The invariant `step_count = walk + run + hop` is preserved by every
`push`. -/
theorem push_sum_inv (a : Sample) (st : CoreState)
    (h : st.run.out.step_count
      = st.run.num_steps_walk + st.run.num_steps_run + st.run.num_steps_hop) :
    (push a st).2.run.out.step_count
      = (push a st).2.run.num_steps_walk + (push a st).2.run.num_steps_run
        + (push a st).2.run.num_steps_hop := by
  rcases push_run_cases a st with he | he <;> rw [he]
  · exact h
  · obtain ⟨c, h1, h2⟩ := step_algo_run_delta
      (st.buffY.set st.count (apply_filter st.lp a.ary).1)
      (st.buffTs.set st.count a.timestamp) st.run
    omega

/-- C2: for every finite input sequence processed from the initial state,
the cumulative counters satisfy
`step_count = num_steps_walk + num_steps_run + num_steps_hop`
(a batch classified STATIONARY never commits a minimum, so every step
lands in exactly one per-class counter). -/
theorem C2_total_eq_sum (l : List Sample) :
    ((runSeq l initState).2).run.out.step_count
      = ((runSeq l initState).2).run.num_steps_walk
        + ((runSeq l initState).2).run.num_steps_run
        + ((runSeq l initState).2).run.num_steps_hop := by
  suffices h : ∀ (st : CoreState),
      st.run.out.step_count
        = st.run.num_steps_walk + st.run.num_steps_run + st.run.num_steps_hop →
      ((runSeq l st).2).run.out.step_count
        = ((runSeq l st).2).run.num_steps_walk
          + ((runSeq l st).2).run.num_steps_run
          + ((runSeq l st).2).run.num_steps_hop by
    exact h initState rfl
  induction l with
  | nil => intro st hst; exact hst
  | cons a l ih =>
    intro st hst
    exact ih (push a st).2 (push_sum_inv a st hst)

/-! ## Claim C4: amplitude gating -/

theorem scanMax_maxValInv (v0 : ℚ) (ext : List ℚ) (i : ℕ)
    (hi : i < SAMP_BUFF_LEN) (t : ℚ) (s : ScanState)
    (h : maxValInv v0 ext s) : maxValInv v0 ext (scanMax (ext.getD i 0) t s) := by
  obtain ⟨hc, hv⟩ := h
  simp only [scanMax]
  split_ifs <;> first
    | exact ⟨hc, hv⟩
    | exact ⟨hc, Or.inr ⟨i, hi, rfl⟩⟩

theorem scanMin_maxValInv (v0 : ℚ) (ext : List ℚ) (i : ℕ)
    (hi : i < SAMP_BUFF_LEN) (t : ℚ) (s : ScanState)
    (hall : ∀ p < SAMP_BUFF_LEN, ∀ q < SAMP_BUFF_LEN,
        ext.getD p 0 - ext.getD q 0 < CLOSE_TO_ZERO)
    (hv0 : ∀ q < SAMP_BUFF_LEN, v0 - ext.getD q 0 < CLOSE_TO_ZERO)
    (h : maxValInv v0 ext s) : maxValInv v0 ext (scanMin (ext.getD i 0) t s) := by
  obtain ⟨hc, hv⟩ := h
  simp only [scanMin]
  split_ifs with h1 h2 h3 h4 <;> try exact ⟨hc, hv⟩
  · exfalso
    try dsimp only at h3
    rcases hv with he | ⟨j, hj, he⟩
    · have hb := hv0 i hi
      rw [he] at h3
      linarith
    · have hb := hall j hj i hi
      rw [he] at h3
      linarith
  · exfalso
    try dsimp only at h4
    rcases hv with he | ⟨j, hj, he⟩
    · have hb := hv0 i hi
      rw [he] at h4
      linarith
    · have hb := hall j hj i hi
      rw [he] at h4
      linarith

theorem scanStep_maxValInv (der sExt tsExt : List ℚ) (i : ℕ)
    (hi : i < SAMP_BUFF_LEN) (v0 : ℚ)
    (hall : ∀ p < SAMP_BUFF_LEN, ∀ q < SAMP_BUFF_LEN,
        sExt.getD p 0 - sExt.getD q 0 < CLOSE_TO_ZERO)
    (hv0 : ∀ q < SAMP_BUFF_LEN, v0 - sExt.getD q 0 < CLOSE_TO_ZERO)
    (s : ScanState) (h : maxValInv v0 sExt s) :
    maxValInv v0 sExt (scanStep der sExt tsExt i s) := by
  obtain ⟨s1, hs1, hc⟩ := scanStep_cases der sExt tsExt i s
  have h1 : maxValInv v0 sExt s1 := by
    rcases hs1 with rfl | rfl
    · exact h
    · exact h
  rcases hc with he | ⟨_, he⟩ | ⟨_, he⟩ <;> rw [he]
  · exact h1
  · exact scanMax_maxValInv v0 sExt i hi _ s1 h1
  · exact scanMin_maxValInv v0 sExt i hi _ s1 hall hv0 h1

theorem scanRun_maxValInv (der sExt tsExt : List ℚ) (v0 : ℚ)
    (hall : ∀ p < SAMP_BUFF_LEN, ∀ q < SAMP_BUFF_LEN,
        sExt.getD p 0 - sExt.getD q 0 < CLOSE_TO_ZERO)
    (hv0 : ∀ q < SAMP_BUFF_LEN, v0 - sExt.getD q 0 < CLOSE_TO_ZERO)
    (s : ScanState) (h : maxValInv v0 sExt s) :
    maxValInv v0 sExt (scanRun der sExt tsExt s) :=
  scan_foldl_inv _
    (fun i hi s hs =>
      scanStep_maxValInv der sExt tsExt i (List.mem_range.mp hi) v0 hall hv0 s hs)
    s h

theorem scanOf_maxValInv (buffY buffTs : List ℚ) (st : RunState)
    (hall : ∀ p < SAMP_BUFF_LEN, ∀ q < SAMP_BUFF_LEN,
        (st.tailS ++ buffY).getD p 0 - (st.tailS ++ buffY).getD q 0 < CLOSE_TO_ZERO)
    (hprev : ∀ q < SAMP_BUFF_LEN,
        st.out.prev_max - (st.tailS ++ buffY).getD q 0 < CLOSE_TO_ZERO) :
    maxValInv st.out.prev_max (st.tailS ++ buffY) (scanOf buffY buffTs st) :=
  scanRun_maxValInv _ _ _ _ hall hprev _ ⟨rfl, Or.inl rfl⟩

set_option maxRecDepth 8192 in
/-- C4: a step is committed only when the peak-to-trough separation
exceeds `CLOSE_TO_ZERO = 1.5`; if every pair of candidate values of the
batch (extended array entries and the carried-in previous maximum) has
swing smaller than 1.5, `step_count` does not increase. -/
theorem C4_amplitude_gating (st : RunState) (buffY buffTs : List ℚ)
    (hall : ∀ p < SAMP_BUFF_LEN, ∀ q < SAMP_BUFF_LEN,
        (st.tailS ++ buffY).getD p 0 - (st.tailS ++ buffY).getD q 0 < CLOSE_TO_ZERO)
    (hprev : ∀ q < SAMP_BUFF_LEN,
        st.out.prev_max - (st.tailS ++ buffY).getD q 0 < CLOSE_TO_ZERO) :
    (step_algo_run buffY buffTs st).out.step_count = st.out.step_count := by
  have key := scanOf_maxValInv buffY buffTs st hall hprev
  have hrw : (step_algo_run buffY buffTs st).out.step_count
      = st.out.step_count + (scanOf buffY buffTs st).count_min_det := rfl
  rw [hrw, key.1]
  omega

/-- Witness for C4: on the all-zero frame from the initial detector
state, no swing reaches 1.5 and the step counter stays put. -/
theorem C4_amplitude_gating_witness :
    (step_algo_run (List.replicate SAMP_BUFF_LEN 0) (List.replicate SAMP_BUFF_LEN 0)
        initRunState).out.step_count = initRunState.out.step_count :=
  C4_amplitude_gating initRunState _ _
    (by with_unfolding_all decide) (by with_unfolding_all decide)

/-! ## Claim C5: dead-time gating -/

theorem deadTime_commit (t p0 g0 : ℚ) (l : List ℚ)
    (hch : List.Chain' gapOK l)
    (hall : ∀ a ∈ l, a ≤ p0 ∧ gapOK a g0)
    (hg : g0 ≤ p0)
    (hgap : t - p0 > NO_DETECT_DUR_SEC) :
    List.Chain' gapOK (t :: l) ∧ (∀ a ∈ t :: l, a ≤ t ∧ gapOK a g0) ∧ g0 ≤ t := by
  have hpos : (0:ℚ) < NO_DETECT_DUR_SEC := by norm_num [NO_DETECT_DUR_SEC]
  refine ⟨List.chain'_cons'.mpr ⟨?_, hch⟩, ?_, by unfold gapOK at *; linarith⟩
  · intro y hy
    have hy' := List.mem_of_mem_head? hy
    have := (hall y hy').1
    unfold gapOK at *
    linarith
  · intro a ha
    rcases List.mem_cons.mp ha with rfl | ha
    · exact ⟨le_refl _, by unfold gapOK at *; linarith⟩
    · obtain ⟨u1, u2⟩ := hall a ha
      exact ⟨by unfold gapOK at *; linarith, u2⟩

theorem scanMax_deadTime (M0 m0 v t : ℚ) (s : ScanState)
    (h : deadTimeInv M0 m0 s) : deadTimeInv M0 m0 (scanMax v t s) := by
  have hpos : (0:ℚ) < NO_DETECT_DUR_SEC := by norm_num [NO_DETECT_DUR_SEC]
  obtain ⟨hcM, haM, hM, hcm, ham, hm⟩ := h
  simp only [scanMax]
  split_ifs with h1 h2 h3 h4 h5
  · obtain ⟨c1, c2, c3⟩ := deadTime_commit t s.prev_max_ts M0 (maxTs s) hcM haM hM h1
    exact ⟨c1, c2, c3, hcm, ham, hm⟩
  · refine ⟨hcM, fun a ha => ?_, ?_, hcm, ham, hm⟩
    · obtain ⟨u1, u2⟩ := haM a ha
      refine ⟨?_, u2⟩
      show a ≤ t - MAX_TIME_PERIOD_SEC
      linarith
    · show M0 ≤ t - MAX_TIME_PERIOD_SEC
      linarith
  · obtain ⟨c1, c2, c3⟩ := deadTime_commit t s.prev_max_ts M0 (maxTs s) hcM haM hM h1
    exact ⟨c1, c2, c3, hcm, ham, hm⟩
  · exact ⟨hcM, haM, hM, hcm, ham, hm⟩
  · exact ⟨hcM, haM, hM, hcm, ham, hm⟩
  · exact ⟨hcM, haM, hM, hcm, ham, hm⟩

theorem scanMin_deadTime (M0 m0 v t : ℚ) (s : ScanState)
    (h : deadTimeInv M0 m0 s) : deadTimeInv M0 m0 (scanMin v t s) := by
  have hpos : (0:ℚ) < NO_DETECT_DUR_SEC := by norm_num [NO_DETECT_DUR_SEC]
  obtain ⟨hcM, haM, hM, hcm, ham, hm⟩ := h
  simp only [scanMin]
  split_ifs with h1 h2 h3 h4
  · obtain ⟨c1, c2, c3⟩ := deadTime_commit t s.prev_min_ts m0 (minTs s) hcm ham hm h1
    exact ⟨hcM, haM, hM, c1, c2, c3⟩
  · refine ⟨hcM, haM, hM, hcm, fun a ha => ?_, ?_⟩
    · obtain ⟨u1, u2⟩ := ham a ha
      refine ⟨?_, u2⟩
      show a ≤ t - MAX_TIME_PERIOD_SEC
      linarith
    · show m0 ≤ t - MAX_TIME_PERIOD_SEC
      linarith
  · obtain ⟨c1, c2, c3⟩ := deadTime_commit t s.prev_min_ts m0 (minTs s) hcm ham hm h1
    exact ⟨hcM, haM, hM, c1, c2, c3⟩
  · exact ⟨hcM, haM, hM, hcm, ham, hm⟩
  · exact ⟨hcM, haM, hM, hcm, ham, hm⟩

theorem scanStep_deadTime (der sExt tsExt : List ℚ) (i : ℕ) (M0 m0 : ℚ)
    (s : ScanState) (h : deadTimeInv M0 m0 s) :
    deadTimeInv M0 m0 (scanStep der sExt tsExt i s) := by
  obtain ⟨s1, hs1, hc⟩ := scanStep_cases der sExt tsExt i s
  have h1 : deadTimeInv M0 m0 s1 := by
    rcases hs1 with rfl | rfl
    · exact h
    · exact h
  rcases hc with he | ⟨_, he⟩ | ⟨_, he⟩ <;> rw [he]
  · exact h1
  · exact scanMax_deadTime M0 m0 _ _ s1 h1
  · exact scanMin_deadTime M0 m0 _ _ s1 h1

theorem scanRun_deadTime (der sExt tsExt : List ℚ) (M0 m0 : ℚ)
    (s : ScanState) (h : deadTimeInv M0 m0 s) :
    deadTimeInv M0 m0 (scanRun der sExt tsExt s) :=
  scan_foldl_inv _ (fun i _ s hs => scanStep_deadTime der sExt tsExt i M0 m0 s hs) s h

set_option maxRecDepth 8192 in
/-- C5: within a scan that starts with an empty commit trace, the
committed timestamps of each kind are pairwise-consecutively separated
by more than `NO_DETECT_DUR_SEC = 0.2 s`, and every commit exceeds the
carried-in same-kind timestamp by more than 0.2 s: two same-kind extrema
closer than the dead time produce at most one commit. -/
theorem C5_dead_time_gating (der sExt tsExt : List ℚ) (s0 : ScanState)
    (hc : s0.commits = []) :
    List.Chain' gapOK (maxTs (scanRun der sExt tsExt s0)) ∧
    (∀ a ∈ maxTs (scanRun der sExt tsExt s0),
      a - s0.prev_max_ts > NO_DETECT_DUR_SEC) ∧
    List.Chain' gapOK (minTs (scanRun der sExt tsExt s0)) ∧
    (∀ a ∈ minTs (scanRun der sExt tsExt s0),
      a - s0.prev_min_ts > NO_DETECT_DUR_SEC) := by
  have base : deadTimeInv s0.prev_max_ts s0.prev_min_ts s0 := by
    refine ⟨?_, ?_, le_refl _, ?_, ?_, le_refl _⟩ <;>
      simp [maxTs, minTs, tsOfKind, hc]
  have key := scanRun_deadTime der sExt tsExt s0.prev_max_ts s0.prev_min_ts s0 base
  exact ⟨key.1, fun a ha => (key.2.1 a ha).2, key.2.2.2.1,
    fun a ha => (key.2.2.2.2.1 a ha).2⟩

theorem classify_counters_mono (amp freq : ℚ) (w r h c : ℕ) :
    w ≤ (classify amp freq w r h c).2.1 ∧
    r ≤ (classify amp freq w r h c).2.2.1 ∧
    h ≤ (classify amp freq w r h c).2.2.2 := by
  unfold classify
  split_ifs <;> simp

set_option maxRecDepth 4096 in
theorem step_algo_run_counters_mono (buffY buffTs : List ℚ) (r : RunState) :
    r.out.step_count ≤ (step_algo_run buffY buffTs r).out.step_count ∧
    r.num_steps_walk ≤ (step_algo_run buffY buffTs r).num_steps_walk ∧
    r.num_steps_run ≤ (step_algo_run buffY buffTs r).num_steps_run ∧
    r.num_steps_hop ≤ (step_algo_run buffY buffTs r).num_steps_hop :=
  ⟨Nat.le_add_right _ _, (classify_counters_mono _ _ _ _ _ _).1,
    (classify_counters_mono _ _ _ _ _ _).2.1,
    (classify_counters_mono _ _ _ _ _ _).2.2⟩

/-- C8: each of `step_count`, `num_steps_walk`, `num_steps_run`,
`num_steps_hop` is non-decreasing across a call: after any call on any
state, each counter is at least its value before the call. -/
theorem C8_counters_monotone (a : Sample) (st : CoreState) :
    st.run.out.step_count ≤ ((push a st).2).run.out.step_count ∧
    st.run.num_steps_walk ≤ ((push a st).2).run.num_steps_walk ∧
    st.run.num_steps_run ≤ ((push a st).2).run.num_steps_run ∧
    st.run.num_steps_hop ≤ ((push a st).2).run.num_steps_hop := by
  rcases push_run_cases a st with h | h <;> rw [h]
  · exact ⟨le_refl _, le_refl _, le_refl _, le_refl _⟩
  · exact step_algo_run_counters_mono _ _ st.run


/-! ## Claim C3: mode and commit discipline -/

theorem scanMax_commits (v t : ℚ) (s : ScanState) :
    ((scanMax v t s).commits = s.commits ∧
      (scanMax v t s).prev_min_ts = s.prev_min_ts) ∨
    ((scanMax v t s).commits = (true, t) :: s.commits ∧
      (scanMax v t s).prev_max_ts = t ∧
      (scanMax v t s).prev_min_ts = s.prev_min_ts) := by
  simp only [scanMax]
  split_ifs <;>
    first
      | exact Or.inl ⟨rfl, rfl⟩
      | exact Or.inr ⟨rfl, rfl, rfl⟩

theorem scanMin_commits (v t : ℚ) (s : ScanState) :
    ((scanMin v t s).commits = s.commits ∧
      (scanMin v t s).prev_max_ts = s.prev_max_ts) ∨
    ((scanMin v t s).commits = (false, t) :: s.commits ∧
      (scanMin v t s).prev_min_ts = t ∧
      (scanMin v t s).prev_max_ts = s.prev_max_ts) := by
  simp only [scanMin]
  split_ifs <;>
    first
      | exact Or.inl ⟨rfl, rfl⟩
      | exact Or.inr ⟨rfl, rfl, rfl⟩

/-- C3 (amended): at each loop iteration the branch taken is determined
by the timestamp inequality — max-search iff
`prev_max_ts ≤ prev_min_ts` — and a commit records the committed
timestamp into the matching `prev_*_ts` while leaving the other kind's
timestamp unchanged (so the mode flips exactly when the committed
timestamp overtakes the other kind's timestamp); commits need not
strictly alternate. -/
theorem C3_mode_gates_commits (der sExt tsExt : List ℚ) (i : ℕ) (s : ScanState) :
    (scanStep der sExt tsExt i s).commits = s.commits ∨
    (s.prev_max_ts ≤ s.prev_min_ts ∧ ∃ t,
      (scanStep der sExt tsExt i s).commits = (true, t) :: s.commits ∧
      (scanStep der sExt tsExt i s).prev_max_ts = t ∧
      (scanStep der sExt tsExt i s).prev_min_ts = s.prev_min_ts) ∨
    (¬ s.prev_max_ts ≤ s.prev_min_ts ∧ ∃ t,
      (scanStep der sExt tsExt i s).commits = (false, t) :: s.commits ∧
      (scanStep der sExt tsExt i s).prev_min_ts = t ∧
      (scanStep der sExt tsExt i s).prev_max_ts = s.prev_max_ts) := by
  obtain ⟨s1, hs1, hc⟩ := scanStep_cases der sExt tsExt i s
  rcases hs1 with rfl | heq
  · rcases hc with he | ⟨hm, he⟩ | ⟨hm, he⟩
    · left
      rw [he]
    · rcases scanMax_commits (sExt.getD i 0) (tsExt.getD i 0) s1 with ⟨e1, _⟩ | ⟨e1, e2, e3⟩
      · left
        rw [he, e1]
      · right; left
        exact ⟨hm, tsExt.getD i 0, by rw [he, e1], by rw [he, e2], by rw [he, e3]⟩
    · rcases scanMin_commits (sExt.getD i 0) (tsExt.getD i 0) s1 with ⟨e1, _⟩ | ⟨e1, e2, e3⟩
      · left
        rw [he, e1]
      · right; right
        exact ⟨hm, tsExt.getD i 0, by rw [he, e1], by rw [he, e2], by rw [he, e3]⟩
  · subst heq
    rcases hc with he | ⟨hm, he⟩ | ⟨hm, he⟩
    · left
      rw [he]
    · rcases scanMax_commits (sExt.getD i 0) (tsExt.getD i 0) _ with ⟨e1, _⟩ | ⟨e1, e2, e3⟩
      · left
        rw [he, e1]
      · right; left
        exact ⟨hm, tsExt.getD i 0, by rw [he, e1], by rw [he, e2], by rw [he, e3]⟩
    · rcases scanMin_commits (sExt.getD i 0) (tsExt.getD i 0) _ with ⟨e1, _⟩ | ⟨e1, e2, e3⟩
      · left
        rw [he, e1]
      · right; right
        exact ⟨hm, tsExt.getD i 0, by rw [he, e1], by rw [he, e2], by rw [he, e3]⟩

/-! ## Claim C10: frame effect of a commit-free batch -/

theorem scanMax_frame (v t : ℚ) (s : ScanState) :
    ((scanMax v t s).count_max_det = s.count_max_det ∧
      (scanMax v t s).count_min_det = s.count_min_det ∧
      (scanMax v t s).prev_max_val = s.prev_max_val ∧
      (scanMax v t s).prev_min_val = s.prev_min_val) ∨
    ((scanMax v t s).count_max_det = s.count_max_det + 1 ∧
      (scanMax v t s).count_min_det = s.count_min_det ∧
      (scanMax v t s).prev_min_val = s.prev_min_val) := by
  simp only [scanMax]
  split_ifs <;>
    first
      | exact Or.inl ⟨rfl, rfl, rfl, rfl⟩
      | exact Or.inr ⟨rfl, rfl, rfl⟩

theorem scanMin_frame (v t : ℚ) (s : ScanState) :
    ((scanMin v t s).count_max_det = s.count_max_det ∧
      (scanMin v t s).count_min_det = s.count_min_det ∧
      (scanMin v t s).prev_max_val = s.prev_max_val ∧
      (scanMin v t s).prev_min_val = s.prev_min_val) ∨
    ((scanMin v t s).count_min_det = s.count_min_det + 1 ∧
      (scanMin v t s).count_max_det = s.count_max_det ∧
      (scanMin v t s).prev_max_val = s.prev_max_val) := by
  simp only [scanMin]
  split_ifs <;>
    first
      | exact Or.inl ⟨rfl, rfl, rfl, rfl⟩
      | exact Or.inr ⟨rfl, rfl, rfl⟩

theorem scanStep_frameInv (der sExt tsExt : List ℚ) (i : ℕ) (s0 s : ScanState)
    (h : frameInv s0 s) : frameInv s0 (scanStep der sExt tsExt i s) := by
  obtain ⟨s1, hs1, hc⟩ := scanStep_cases der sExt tsExt i s
  have h1 : frameInv s0 s1 := by
    rcases hs1 with rfl | rfl
    · exact h
    · exact h
  obtain ⟨i1, i2, i3, i4⟩ := h1
  rcases hc with he | ⟨_, he⟩ | ⟨_, he⟩ <;> rw [he]
  · exact ⟨i1, i2, i3, i4⟩
  · rcases scanMax_frame (sExt.getD i 0) (tsExt.getD i 0) s1 with
      ⟨e1, e2, e3, e4⟩ | ⟨e1, e2, e4⟩
    · refine ⟨fun hh => ?_, fun hh => ?_, ?_, ?_⟩
      · rw [e3]; exact i1 (by rw [e1] at hh; exact hh)
      · rw [e4]; exact i2 (by rw [e2] at hh; exact hh)
      · rw [e1]; exact i3
      · rw [e2]; exact i4
    · refine ⟨fun hh => ?_, fun hh => ?_, ?_, ?_⟩
      · exfalso; rw [e1] at hh; omega
      · rw [e4]; exact i2 (by rw [e2] at hh; exact hh)
      · rw [e1]; omega
      · rw [e2]; exact i4
  · rcases scanMin_frame (sExt.getD i 0) (tsExt.getD i 0) s1 with
      ⟨e1, e2, e3, e4⟩ | ⟨e2, e1, e3⟩
    · refine ⟨fun hh => ?_, fun hh => ?_, ?_, ?_⟩
      · rw [e3]; exact i1 (by rw [e1] at hh; exact hh)
      · rw [e4]; exact i2 (by rw [e2] at hh; exact hh)
      · rw [e1]; exact i3
      · rw [e2]; exact i4
    · refine ⟨fun hh => ?_, fun hh => ?_, ?_, ?_⟩
      · rw [e3]; exact i1 (by rw [e1] at hh; exact hh)
      · exfalso; rw [e2] at hh; omega
      · rw [e1]; exact i3
      · rw [e2]; omega

theorem scanRun_frameInv (der sExt tsExt : List ℚ) (s0 : ScanState)
    (s : ScanState) (h : frameInv s0 s) :
    frameInv s0 (scanRun der sExt tsExt s) :=
  scan_foldl_inv _ (fun i _ s hs => scanStep_frameInv der sExt tsExt i s0 s hs) s h

theorem scanOf_frameInv (buffY buffTs : List ℚ) (st : RunState) :
    frameInv (scanInit st) (scanOf buffY buffTs st) :=
  scanRun_frameInv _ _ _ _ _ ⟨fun _ => rfl, fun _ => rfl, le_refl _, le_refl _⟩

set_option maxRecDepth 8192 in
/-- C10 (amended): a batch in which no maximum and no minimum is
committed leaves `prev_max`, `prev_min` and `step_count` unchanged; the
timestamps `prev_max_ts` / `prev_min_ts` may still move, via the
`MAX_TIME_PERIOD_SEC` clamp, without any commit. -/
theorem C10_frame_effect_amended (st : RunState) (buffY buffTs : List ℚ)
    (hmax : (scanOf buffY buffTs st).count_max_det = 0)
    (hmin : (scanOf buffY buffTs st).count_min_det = 0) :
    (step_algo_run buffY buffTs st).out.prev_max = st.out.prev_max ∧
    (step_algo_run buffY buffTs st).out.prev_min = st.out.prev_min ∧
    (step_algo_run buffY buffTs st).out.step_count = st.out.step_count := by
  obtain ⟨i1, i2, _, _⟩ := scanOf_frameInv buffY buffTs st
  have e1 : (step_algo_run buffY buffTs st).out.prev_max
      = (scanOf buffY buffTs st).prev_max_val := rfl
  have e2 : (step_algo_run buffY buffTs st).out.prev_min
      = (scanOf buffY buffTs st).prev_min_val := rfl
  have e3 : (step_algo_run buffY buffTs st).out.step_count
      = st.out.step_count + (scanOf buffY buffTs st).count_min_det := rfl
  refine ⟨?_, ?_, ?_⟩
  · rw [e1]
    exact i1 hmax
  · rw [e2]
    exact i2 hmin
  · rw [e3, hmin]
    omega

/-! ## Claim C1: which extended-array entries the detector reads -/

theorem scanStepSpec_shift (der sExt tsExt : List ℚ) (i : ℕ) (s : ScanState) :
    scanStepSpec der sExt tsExt i s
      = scanStep der (sExt.drop ll_TC) (tsExt.drop ll_TC) i s := by
  simp only [scanStep, scanStepSpec, List.getD_eq_getElem?_getD, List.getElem?_drop]

/-- C1 (amended): at a firing loop index `i` the detector examines and
commits the extended-array entries at index `i` (not `K + i`): the
spec's `K + i`-reading variant coincides with the code exactly when its
arrays are shifted forward by `K = ll_TC` samples. -/
theorem C1_reads_at_i (der sExt tsExt : List ℚ) (s : ScanState) :
    scanRunSpec der sExt tsExt s
      = scanRun der (sExt.drop ll_TC) (tsExt.drop ll_TC) s := by
  unfold scanRun scanRunSpec
  have hf : (fun (s : ScanState) (i : ℕ) => scanStepSpec der sExt tsExt i s)
      = fun (s : ScanState) (i : ℕ) =>
        scanStep der (sExt.drop ll_TC) (tsExt.drop ll_TC) i s := by
    funext s i
    exact scanStepSpec_shift der sExt tsExt i s
  rw [hf]

set_option maxRecDepth 100000 in
/-- C1 counterexample: a concrete batch on which the committed maximum
value of the code (reading index `i`) differs from that of the spec's
`K + i` reading. -/
theorem C1_counterexample :
    (scanRun derC1 sExtC1 tsExtC1 scanZero).prev_max_val
      ≠ (scanRunSpec derC1 sExtC1 tsExtC1 scanZero).prev_max_val := by
  with_unfolding_all decide

set_option maxRecDepth 100000 in
/-- C3 counterexample: a concrete batch (from a state whose
`prev_min_ts` lies ahead) in which two maxima are committed in a row, so
commits do not strictly alternate. -/
theorem C3_counterexample :
    altKinds ((scanRun derC3 sExtC3 tsExtC3 scanZeroMin5).commits) = false := by
  with_unfolding_all decide

/-- Witness for the amended C3 at a concrete committing iteration. -/
theorem C3_mode_gates_commits_witness :
    (scanStep derC1 sExtC1 tsExtC1 0 scanZero).commits = scanZero.commits ∨
    (scanZero.prev_max_ts ≤ scanZero.prev_min_ts ∧ ∃ t,
      (scanStep derC1 sExtC1 tsExtC1 0 scanZero).commits
        = (true, t) :: scanZero.commits ∧
      (scanStep derC1 sExtC1 tsExtC1 0 scanZero).prev_max_ts = t ∧
      (scanStep derC1 sExtC1 tsExtC1 0 scanZero).prev_min_ts
        = scanZero.prev_min_ts) ∨
    (¬ scanZero.prev_max_ts ≤ scanZero.prev_min_ts ∧ ∃ t,
      (scanStep derC1 sExtC1 tsExtC1 0 scanZero).commits
        = (false, t) :: scanZero.commits ∧
      (scanStep derC1 sExtC1 tsExtC1 0 scanZero).prev_min_ts = t ∧
      (scanStep derC1 sExtC1 tsExtC1 0 scanZero).prev_max_ts
        = scanZero.prev_max_ts) :=
  C3_mode_gates_commits derC1 sExtC1 tsExtC1 0 scanZero

/-- Witness for C5 on a concrete batch with a commit. -/
theorem C5_dead_time_gating_witness :
    List.Chain' gapOK (maxTs (scanRun derC1 sExtC1 tsExtC1 scanZero)) ∧
    (∀ a ∈ maxTs (scanRun derC1 sExtC1 tsExtC1 scanZero),
      a - scanZero.prev_max_ts > NO_DETECT_DUR_SEC) ∧
    List.Chain' gapOK (minTs (scanRun derC1 sExtC1 tsExtC1 scanZero)) ∧
    (∀ a ∈ minTs (scanRun derC1 sExtC1 tsExtC1 scanZero),
      a - scanZero.prev_min_ts > NO_DETECT_DUR_SEC) :=
  C5_dead_time_gating derC1 sExtC1 tsExtC1 scanZero rfl

set_option maxRecDepth 100000 in
/-- C10 counterexample: a concrete commit-free batch (constant `-2`
input) on which `step_algo_run` nevertheless moves `prev_max_ts`,
because the period clamp fires on a gated candidate whose separation
check then fails. -/
theorem C10_counterexample :
    (scanOf buffYC10 buffTsC10 initRunState).count_max_det = 0 ∧
    (scanOf buffYC10 buffTsC10 initRunState).count_min_det = 0 ∧
    (step_algo_run buffYC10 buffTsC10 initRunState).out.prev_max_ts
      ≠ initRunState.out.prev_max_ts := by
  with_unfolding_all decide

set_option maxRecDepth 100000 in
/-- Witness for the amended C10 on the all-zero frame. -/
theorem C10_frame_effect_amended_witness :
    (step_algo_run (List.replicate SAMP_BUFF_LEN 0) (List.replicate SAMP_BUFF_LEN 0)
        initRunState).out.prev_max = initRunState.out.prev_max ∧
    (step_algo_run (List.replicate SAMP_BUFF_LEN 0) (List.replicate SAMP_BUFF_LEN 0)
        initRunState).out.prev_min = initRunState.out.prev_min ∧
    (step_algo_run (List.replicate SAMP_BUFF_LEN 0) (List.replicate SAMP_BUFF_LEN 0)
        initRunState).out.step_count = initRunState.out.step_count :=
  C10_frame_effect_amended initRunState _ _
    (by with_unfolding_all decide) (by with_unfolding_all decide)

end Pedometer
